import Mathlib

/-
Shallow embedding of the timing-and-acquisition core of `src/streamlit_app.py`
(New Seoul CC tee-time booking automation). Pure fragments of the Python code are
translated into executable Lean definitions; network attempts are modelled by
explicit outcome values consumed in program order. Character classes (digits,
whitespace) are modelled as ASCII, matching the code's use on ASCII time strings.
-/

/-- Python `str.strip()` followed by `str.replace(":", "")` as performed at the top
of both time formatters: trim whitespace at both ends, then delete every colon. -/
def normTimeChars (s : String) : List Char :=
  (((s.toList.dropWhile Char.isWhitespace).reverse.dropWhile Char.isWhitespace).reverse).filter
    (fun c => c ≠ ':')

/-- Embedding of `format_time_for_api` (src lines 57-66): after strip / colon removal, a string
matching `^\d{3,4}$` (and `isdigit`) is zero-padded to 4 digits; anything else
yields the "0000" sentinel. -/
def formatTimeForApi (s : String) : String :=
  if (normTimeChars s).all Char.isDigit = true ∧
      ((normTimeChars s).length = 3 ∨ (normTimeChars s).length = 4) then
    (if (normTimeChars s).length = 4 then String.mk (normTimeChars s)
     else String.mk ('0' :: normTimeChars s))
  else "0000"

/-- Embedding of `format_time_for_display` (src lines 69-78): after strip / colon removal, a
4-digit numeric string becomes "HH:MM"; the length-5 colon check that follows in the
source can never fire (colons were just removed) and the normalized text is returned
as-is. -/
def formatTimeForDisplay (s : String) : String :=
  if (normTimeChars s).all Char.isDigit = true ∧ (normTimeChars s).length = 4 then
    String.mk ((normTimeChars s).take 2) ++ ":" ++ String.mk ((normTimeChars s).drop 2)
  else if (normTimeChars s).length = 5 ∧ (normTimeChars s)[2]? = some ':' then
    String.mk (normTimeChars s)
  else
    String.mk (normTimeChars s)

/-- Python string `<`: strict lexicographic comparison of code points (a proper
initial segment is smaller). -/
def charsLt : List Char → List Char → Bool
  | _, [] => false
  | [], _ :: _ => true
  | a :: as, b :: bs => decide (a < b) || (a == b && charsLt as bs)

/-- Python string `<` lifted to `String`. -/
def pyLt (s t : String) : Bool := charsLt s.toList t.toList

/-- Python string `<=`: on the total string order, `s <= t` iff `¬ t < s`. -/
def pyLe (s t : String) : Bool := !charsLt t.toList s.toList

theorem charsLt_irrefl : ∀ l : List Char, charsLt l l = false
  | [] => rfl
  | a :: as => by simp [charsLt, charsLt_irrefl as]

theorem charsLt_asymm : ∀ {l m : List Char}, charsLt l m = true → charsLt m l = false
  | _, [], h => by simp [charsLt] at h
  | [], _ :: _, _ => rfl
  | a :: as, b :: bs, h => by
    simp only [charsLt, Bool.or_eq_true, decide_eq_true_eq, Bool.and_eq_true,
      beq_iff_eq] at h ⊢
    rcases h with h | ⟨rfl, h⟩
    · simp [not_lt_of_gt h, ne_of_gt h]
    · simp [lt_irrefl, charsLt_asymm h]

theorem charsLt_trans : ∀ {l m n : List Char},
    charsLt l m = true → charsLt m n = true → charsLt l n = true
  | _, _, [], _, h2 => by simp [charsLt] at h2
  | _, [], _ :: _, h1, _ => by simp [charsLt] at h1
  | [], _ :: _, _ :: _, _, _ => rfl
  | a :: as, b :: bs, c :: cs, h1, h2 => by
    simp only [charsLt, Bool.or_eq_true, decide_eq_true_eq, Bool.and_eq_true,
      beq_iff_eq] at h1 h2 ⊢
    rcases h1 with h1 | ⟨rfl, h1⟩
    · rcases h2 with h2 | ⟨rfl, h2⟩
      · exact Or.inl (h1.trans h2)
      · exact Or.inl h1
    · rcases h2 with h2 | ⟨rfl, h2⟩
      · exact Or.inl h2
      · exact Or.inr ⟨rfl, charsLt_trans h1 h2⟩

theorem charsLt_connex : ∀ {l m : List Char},
    charsLt l m = false → charsLt m l = false → l = m
  | [], [], _, _ => rfl
  | [], _ :: _, h1, _ => by simp [charsLt] at h1
  | _ :: _, [], _, h2 => by simp [charsLt] at h2
  | a :: as, b :: bs, h1, h2 => by
    simp only [charsLt, Bool.or_eq_false_iff, decide_eq_false_iff_not,
      Bool.and_eq_false_iff, beq_eq_false_iff_ne, ne_eq] at h1 h2
    have hab : a = b := le_antisymm (not_lt.mp h2.1) (not_lt.mp h1.1)
    subst hab
    rcases h1.2 with h1' | h1'
    · exact absurd rfl h1'
    · rcases h2.2 with h2' | h2'
      · exact absurd rfl h2'
      · exact congrArg (a :: ·) (charsLt_connex h1' h2')

theorem pyLt_asymm {s t : String} (h : pyLt s t = true) : pyLt t s = false :=
  charsLt_asymm h

theorem pyLt_trans {s t u : String} (h1 : pyLt s t = true) (h2 : pyLt t u = true) :
    pyLt s u = true :=
  charsLt_trans h1 h2

theorem pyLt_trichotomy (s t : String) : pyLt s t = true ∨ s = t ∨ pyLt t s = true := by
  cases h1 : pyLt s t
  · cases h2 : pyLt t s
    · exact Or.inr (Or.inl (String.toList_inj.mp (charsLt_connex h1 h2)))
    · exact Or.inr (Or.inr rfl)
  · exact Or.inl rfl

theorem pyLe_iff_not_lt {s t : String} : pyLe s t = true ↔ pyLt t s = false := by
  simp [pyLe, pyLt]

theorem pyLe_total (s t : String) : pyLe s t = true ∨ pyLe t s = true := by
  cases h1 : pyLt s t
  · exact Or.inr (pyLe_iff_not_lt.mpr h1)
  · exact Or.inl (pyLe_iff_not_lt.mpr (pyLt_asymm h1))

theorem pyLe_trans {s t u : String} (h1 : pyLe s t = true) (h2 : pyLe t u = true) :
    pyLe s u = true := by
  rw [pyLe_iff_not_lt] at h1 h2 ⊢
  cases hus : pyLt u s
  · rfl
  · exfalso
    rcases pyLt_trichotomy s t with hst | rfl | hst
    · exact absurd (pyLt_trans hus hst) (by simp [h2])
    · exact absurd hus (by simp [h2])
    · exact absurd hst (by simp [h1])

theorem pyLt_le {s t : String} (h : pyLt s t = true) : pyLe s t = true :=
  pyLe_iff_not_lt.mpr (pyLt_asymm h)

theorem pyLe_refl (s : String) : pyLe s s = true :=
  pyLe_iff_not_lt.mpr (charsLt_irrefl _)

/-- One fetched tee-time row, the 6-tuple
`(bk_time, bk_cos, bk_part, course_nm, co_div, status_r)` built in `_fetch_tee_list`
(src line 444). -/
structure Slot where
  bkTime : String
  bkCos : String
  bkPart : String
  courseNm : String
  coDiv : String
  statusR : String
deriving DecidableEq

/-- The course display-name table `course_detail_mapping` (src line 120). -/
def courseDetailMapping : List (String × String) :=
  [("A", "예술OUT"), ("B", "예술IN"), ("C", "문화OUT"), ("D", "문화IN")]

/-- Python `dict.get(k, d)` on an association list. -/
def dictGetD (m : List (String × String)) (k : String) (d : String) : String :=
  match m.find? (fun p => p.1 == k) with
  | some p => p.2
  | none => d

/-- One raw row of a `getTeeList` response body; an absent key is `none`
(JSON values are modelled as strings). -/
structure TeeRow where
  bkTimeF : Option String
  bkCosF : Option String
  bkPartF : Option String
  rF : Option String
deriving DecidableEq

/-- Row-to-slot conversion in `_fetch_tee_list` (src lines 434-444): the time is
normalized by `format_time_for_api` (a missing `BK_TIME` is Python `str(None)`, which
normalizes to "0000", so `bk_time` is always truthy); `BK_PART` defaults to "1" for
courses A and C and "2" otherwise; an unknown course code maps to "Unknown"; the row
is kept iff `bk_time` and `bk_cos` are truthy; the status `R` defaults to "N/A". -/
def rowToSlot (coDiv : String) (t : TeeRow) : Option Slot :=
  let bkTime := formatTimeForApi (match t.bkTimeF with | some s => s | none => "None")
  let bkCos := match t.bkCosF with | some s => s | none => ""
  let bkPart := match t.bkPartF with
    | some s => s
    | none => if bkCos == "A" || bkCos == "C" then "1" else "2"
  let courseNm := dictGetD courseDetailMapping bkCos "Unknown"
  if bkTime ≠ "" ∧ bkCos ≠ "" then
    some ⟨bkTime, bkCos, bkPart, courseNm, coDiv, t.rF.getD "N/A"⟩
  else none

/-- A parsed `getTeeList` body: the optional `resultCode` plus the `rows` array. -/
structure TeeResp where
  resultCode : Option String
  rows : List TeeRow
deriving DecidableEq

/-- Outcome of one `_fetch_tee_list` network attempt. `reqErr` covers
`requests.RequestException` (timeouts and bad HTTP statuses included), `badJson` a
`JSONDecodeError`, `parsed` a well-formed JSON body, `excOther` any other exception. -/
inductive FetchOutcome
  | reqErr
  | badJson
  | parsed (d : TeeResp)
  | excOther
deriving DecidableEq

/-- Handling of a well-formed `getTeeList` body (src lines 423-450): a present
`resultCode` other than "0000" returns the empty list (an API logic error is not
retried); otherwise every row is converted and the valid ones collected. -/
def teeRespResult (coDiv : String) (d : TeeResp) : List Slot :=
  match d.resultCode with
  | some c => if c ≠ "0000" then [] else d.rows.filterMap (rowToSlot coDiv)
  | none => d.rows.filterMap (rowToSlot coDiv)

/-- The attempt loop of `_fetch_tee_list` (src lines 415-463) with the stop event not
set, over the outcomes of its attempts: a parsed body returns its result; a network
error or JSON parse failure moves to the next attempt; any other exception breaks;
exhausting the `max_retries` budget returns `[]`. -/
def fetchTeeList (coDiv : String) : List FetchOutcome → Nat → List Slot
  | _, 0 => []
  | [], _ + 1 => []
  | o :: rest, n + 1 =>
    match o with
    | .parsed d => teeRespResult coDiv d
    | .reqErr => fetchTeeList coDiv rest n
    | .badJson => fetchTeeList coDiv rest n
    | .excOther => []

/-- Embedding of `_fetch_tee_list` with its default budget `max_retries = 2`. -/
def fetchTeeListRun (coDiv : String) (outcomes : List FetchOutcome) : List Slot :=
  fetchTeeList coDiv outcomes 2

/-- The dedup key `(t[0], t[1], t[2])` of `get_all_available_times` (src line 390). -/
def slotKey3 (t : Slot) : String × String × String := (t.bkTime, t.bkCos, t.bkPart)

/-- The dedup loop of `get_all_available_times` (src lines 387-394): the first
occurrence per key wins, and Python dicts preserve insertion order, so the output
lists the first occurrences in input order. -/
def dedupSlots : List Slot → List (String × String × String) → List Slot
  | [], _ => []
  | t :: ts, seen =>
    if slotKey3 t ∈ seen then dedupSlots ts seen
    else t :: dedupSlots ts (slotKey3 t :: seen)

/-- The deduplication step of `get_all_available_times` (src lines 386-394). -/
def getAllAvailableTimesDedup (l : List Slot) : List Slot := dedupSlots l []

/-- The `target_course_names` argument of `filter_and_sort_times`: the Python code
accepts either a bare string or a list of names (src line 477). -/
inductive CourseArg
  | one (s : String)
  | many (l : List String)
deriving DecidableEq

/-- The `course_list` normalization (src line 477). -/
def courseNameList : CourseArg → List String
  | .one s => [s]
  | .many l => l

/-- The category table `course_map` (src line 474). -/
def courseMap : List (String × List String) :=
  [("All", ["A", "B", "C", "D"]), ("예술", ["A", "B"]), ("문화", ["C", "D"])]

/-- The lookup `course_map.get(name, [name])` unioned over the names (src lines 478-479); the
Python set is modelled as a list used only for membership. -/
def targetCourseCodes (arg : CourseArg) : List String :=
  ((courseNameList arg).map (fun name =>
    match courseMap.find? (fun p => p.1 == name) with
    | some p => p.2
    | none => [name])).flatten

/-- Whether "l" is a leading segment of "m", by code points. -/
def charsLeading : List Char → List Char → Bool
  | [], _ => true
  | _ :: _, [] => false
  | a :: as, b :: bs => a == b && charsLeading as bs

/-- Whether "needle" occurs as a contiguous segment of "hay". -/
def charsSegment (needle : List Char) : List Char → Bool
  | [] => charsLeading needle []
  | b :: bs => charsLeading needle (b :: bs) || charsSegment needle bs

/-- Python substring containment `needle in hay` for strings. -/
def containsSub (needle hay : String) : Bool := charsSegment needle.toList hay.toList

/-- Python `"All" in target_course_names` (src line 491): substring containment on a
bare string, membership on a list. -/
def allInNames : CourseArg → Bool
  | .one s => containsSub "All" s
  | .many l => l.contains "All"

/-- The keep condition of `filter_and_sort_times` (src lines 489-494): the time lies
within the normalized bounds (Python chained string comparison), the course passes the
`"All" in target_course_names` bypass or the code-set membership, and the status `R`
equals "OK" exactly. -/
def keepSlot (startApi endApi : String) (arg : CourseArg) (t : Slot) : Bool :=
  (pyLe startApi t.bkTime && pyLe t.bkTime endApi) &&
    (allInNames arg || (targetCourseCodes arg).contains t.bkCos) &&
    (t.statusR == "OK")

/-- The sort key `lambda x: (x[0], x[1])` (src line 500). -/
def slotSortKey (t : Slot) : String × String := (t.bkTime, t.bkCos)

/-- Python `<=` on the key tuples `(time, cos)`: lexicographic. -/
def keyLeB (p q : String × String) : Bool :=
  pyLt p.1 q.1 || (p.1 == q.1 && pyLe p.2 q.2)

/-- The ascending sort order on slots: key tuples compared lexicographically. -/
def slotLeAsc (a b : Slot) : Prop := keyLeB (slotSortKey a) (slotSortKey b) = true

/-- The descending sort order on slots: the reversed key comparison, which is what
`sort(..., reverse=True)` uses (each key comparison is reversed, ties keep input
order). -/
def slotLeDesc (a b : Slot) : Prop := keyLeB (slotSortKey b) (slotSortKey a) = true

instance : DecidableRel slotLeAsc :=
  fun _ _ => inferInstanceAs (Decidable (_ = true))

instance : DecidableRel slotLeDesc :=
  fun _ _ => inferInstanceAs (Decidable (_ = true))

theorem keyLeB_total (p q : String × String) : keyLeB p q = true ∨ keyLeB q p = true := by
  rcases pyLt_trichotomy p.1 q.1 with h | h | h
  · exact Or.inl (by simp [keyLeB, h])
  · rcases pyLe_total p.2 q.2 with h2 | h2
    · exact Or.inl (by simp [keyLeB, h, h2])
    · exact Or.inr (by simp [keyLeB, h, h2])
  · exact Or.inr (by simp [keyLeB, h])

theorem keyLeB_trans {p q r : String × String} (h1 : keyLeB p q = true)
    (h2 : keyLeB q r = true) : keyLeB p r = true := by
  simp only [keyLeB, Bool.or_eq_true, Bool.and_eq_true, beq_iff_eq] at h1 h2 ⊢
  rcases h1 with h1 | ⟨e1, l1⟩
  · rcases h2 with h2 | ⟨e2, l2⟩
    · exact Or.inl (pyLt_trans h1 h2)
    · exact Or.inl (e2 ▸ h1)
  · rcases h2 with h2 | ⟨e2, l2⟩
    · exact Or.inl (e1 ▸ h2)
    · exact Or.inr ⟨e1.trans e2, pyLe_trans l1 l2⟩

instance : IsTotal Slot slotLeAsc :=
  ⟨fun a b => keyLeB_total (slotSortKey a) (slotSortKey b)⟩

instance : IsTrans Slot slotLeAsc :=
  ⟨fun _ _ _ h1 h2 => keyLeB_trans h1 h2⟩

instance : IsTotal Slot slotLeDesc :=
  ⟨fun a b => keyLeB_total (slotSortKey b) (slotSortKey a)⟩

instance : IsTrans Slot slotLeDesc :=
  ⟨fun _ _ _ h1 h2 => keyLeB_trans h2 h1⟩

/-- Model of `filtered_times.sort(key=lambda x: (x[0], x[1]), reverse=is_reverse)`
(src line 500). Python's Timsort is stable and `reverse=True` sorts as if each key
comparison were reversed while still keeping equal-key elements in input order; a
stable sort's output under a total transitive comparison is unique, and Mathlib's
`insertionSort` is exactly such a stable sort, so it computes the same list. -/
def pySortSlots (isReverse : Bool) (l : List Slot) : List Slot :=
  if isReverse then List.insertionSort slotLeDesc l else List.insertionSort slotLeAsc l

/-- Embedding of `filter_and_sort_times` (src lines 466-510): normalize the window bounds, filter,
then sort. -/
def filterAndSortTimes (allTimes : List Slot) (startTimeStr endTimeStr : String)
    (targetCourseNames : CourseArg) (isReverse : Bool) : List Slot :=
  pySortSlots isReverse
    (allTimes.filter
      (keepSlot (formatTimeForApi startTimeStr) (formatTimeForApi endTimeStr)
        targetCourseNames))

/-- A parsed `doReservation` JSON response, restricted to the keys the code reads
(src lines 558 and 570); an absent key is `none`. -/
structure ResvResp where
  resultCode : Option String
  rFlag : Option String
  status : Option String
deriving DecidableEq

/-- The success test of `try_reservation` (src line 558): result code "0000", or
status flag `R` = "OK", or status string "success". -/
def reservationSuccess (d : ResvResp) : Bool :=
  d.resultCode == some "0000" || d.rFlag == some "OK" || d.status == some "success"

/-- Outcome of one `try_reservation` attempt: transport timeout, other network error,
HTTP-level failure included in `netErr` via `raise_for_status`, malformed JSON body,
a well-formed parsed body, or any other exception. -/
inductive ResvOutcome
  | timeout
  | netErr
  | badJson
  | parsed (d : ResvResp)
  | excOther
deriving DecidableEq

/-- Embedding of `try_reservation` (src lines 546-606) with the stop event not set, over the
outcomes of its `max_retries = 2` attempts: a parsed body decides immediately
(an explicit rejection is never retried); a timeout, network error or malformed
body is retried once; any other exception fails; the exhausted budget fails. -/
def tryReservation (o1 o2 : ResvOutcome) : Bool :=
  match o1 with
  | .parsed d => reservationSuccess d
  | .excOther => false
  | _ =>
    match o2 with
    | .parsed d => reservationSuccess d
    | _ => false

/-- What one `run_api_booking` call did: its returned success flag, the slots handed
to `try_reservation` in order, and the slot logged as the test-mode preview. -/
structure BookingRun where
  success : Bool
  attempted : List Slot
  preview : Option Slot
deriving DecidableEq

/-- The non-test attempt loop of `run_api_booking` (src lines 632-650): try the
candidates in order, recording each attempt, stopping at the first success. -/
def attemptLoop (att : Slot → Bool) : List Slot → List Slot → Bool × List Slot
  | [], acc => (false, acc.reverse)
  | s :: rest, acc =>
    if att s then (true, (s :: acc).reverse) else attemptLoop att rest (s :: acc)

/-- Embedding of `run_api_booking` (src lines 608-655) with the stop event not set; `att` gives
the result each `try_reservation` call would produce. An empty candidate list
returns failure (src lines 610-612) before the test-mode branch is reached, which
makes the test-mode empty-list check (src lines 622-624) unreachable; in test mode a
nonempty list logs its head as the preview and returns success without attempting;
otherwise up to the first 5 candidates are attempted. -/
def runApiBooking (testMode : Bool) (sortedTimes : List Slot) (att : Slot → Bool) :
    BookingRun :=
  if sortedTimes.isEmpty then ⟨false, [], none⟩
  else if testMode then ⟨true, [], sortedTimes.head?⟩
  else
    let r := attemptLoop att (sortedTimes.take 5) []
    ⟨r.1, r.2, none⟩

/-- Outcome of one probe in `get_server_time_offset` (src lines 259-283): a request
failure (including a bad HTTP status), a response without a `Date` header, a
response with one (both instants given as KST seconds), or any other exception. -/
inductive Probe
  | reqErr
  | noDate
  | ok (serverKst localKst : ℚ)
  | excOther
deriving DecidableEq

/-- One attempt of `get_server_time_offset`: a `Date` header yields
`server_time_kst - local_time_kst` and returns; a request failure or a missing
header falls through to the next attempt; any other exception returns 0
immediately (src line 282). -/
def probeStep (p : Probe) (next : ℚ) : ℚ :=
  match p with
  | .ok s l => s - l
  | .excOther => 0
  | .reqErr => next
  | .noDate => next

/-- Embedding of `get_server_time_offset` (src lines 253-286): `max_retries = 5` sequential
attempts, returning 0 once all are exhausted (src line 286). -/
def getServerTimeOffset (p1 p2 p3 p4 p5 : Probe) : ℚ :=
  probeStep p1 (probeStep p2 (probeStep p3 (probeStep p4 (probeStep p5 0))))

/-- The corrected local wait deadline
`target_local_time_kst = run_dt_kst - timedelta(seconds=time_offset)`
(src line 700), with KST instants as rational seconds. -/
def targetLocalTime (runDtKst timeOffset : ℚ) : ℚ := runDtKst - timeOffset

/-- Membership in the output of `filter_and_sort_times`: the sort is a permutation of
the filtered list, so an element is in the output iff it is in the input and passes
the keep condition. -/
theorem mem_filterAndSortTimes {allTimes : List Slot} {s e : String} {arg : CourseArg}
    {rev : Bool} {t : Slot} :
    t ∈ filterAndSortTimes allTimes s e arg rev ↔
      t ∈ allTimes ∧
        keepSlot (formatTimeForApi s) (formatTimeForApi e) arg t = true := by
  cases rev <;>
    simp [filterAndSortTimes, pySortSlots, List.mem_insertionSort, List.mem_filter]

/-- C2: for a well-formed (JSON-parseable) reservation response on the first attempt,
`try_reservation` succeeds iff the response carries at least one of the three
protocol success markers (`resultCode` = "0000", `R` = "OK", or `status` =
"success"); in particular a response carrying only the alternate `status` =
"success" marker is treated as success. -/
theorem tryReservation_success_iff_markers (d : ResvResp) (o2 : ResvOutcome) :
    (tryReservation (.parsed d) o2 = true ↔
      d.resultCode = some "0000" ∨ d.rFlag = some "OK" ∨ d.status = some "success") ∧
    tryReservation (.parsed ⟨none, none, some "success"⟩) o2 = true := by
  constructor
  · simp [tryReservation, reservationSuccess, or_assoc]
  · rfl

/-- C3 (evaluation): in test mode (`dry-run`) `run_api_booking` never hands a slot to
`try_reservation` and for a nonempty candidate list returns success with the
top-ranked candidate as the preview, but for the empty candidate list it returns
failure: the early empty-list guard (src lines 610-612) fires before the test-mode
branch, so the test-mode empty-list success path (src lines 622-624) is unreachable,
contradicting the claim that a dry run always terminates successfully. -/
theorem runApiBooking_testMode_eval (att : Slot → Bool) :
    runApiBooking true [] att = ⟨false, [], none⟩ ∧
    (∀ s rest, runApiBooking true (s :: rest) att = ⟨true, [], some s⟩) ∧
    (∀ slots, (runApiBooking true slots att).attempted = []) := by
  refine ⟨rfl, fun s rest => rfl, fun slots => ?_⟩
  cases slots <;> rfl

theorem dedupSlots_filter (l : List Slot) (seen : List (String × String × String))
    (k : String × String × String) :
    (dedupSlots l seen).filter (fun u => slotKey3 u == k) =
      if k ∈ seen then [] else (l.find? (fun u => slotKey3 u == k)).toList := by
  induction l generalizing seen with
  | nil => simp [dedupSlots]
  | cons t ts ih =>
    rw [dedupSlots]
    by_cases hk : slotKey3 t ∈ seen
    · rw [if_pos hk, ih]
      by_cases hks : k ∈ seen
      · simp [hks]
      · have hne : ¬(slotKey3 t == k) = true := by
          simp only [beq_iff_eq]
          intro h; exact hks (h ▸ hk)
        simp [hks, hne]
    · rw [if_neg hk, List.filter_cons]
      by_cases hkt : slotKey3 t = k
      · have hpred : (slotKey3 t == k) = true := beq_iff_eq.mpr hkt
        have hksn : k ∉ seen := fun h => hk (hkt ▸ h)
        rw [if_pos hpred, ih, if_pos (hkt ▸ List.mem_cons_self _ _), if_neg hksn]
        simp [hpred]
      · have hpred : ¬(slotKey3 t == k) = true := by
          simp only [beq_iff_eq]; exact hkt
        rw [if_neg hpred, ih]
        by_cases hks : k ∈ seen
        · rw [if_pos (List.mem_cons_of_mem _ hks), if_pos hks]
        · have hni : k ∉ slotKey3 t :: seen := by
            intro h
            rcases List.mem_cons.mp h with h | h
            · exact hkt h.symm
            · exact hks h
          rw [if_neg hni, if_neg hks]
          simp [hpred]

/-- C5: for every fetched slot sequence, the deduplication of
`get_all_available_times` keeps, for each `(time, course, sub-round)` key, exactly
the entries equal to the first occurrence of that key in input order — one entry per
present key, with all its fields taken from that first occurrence, no entry for an
absent key. -/
theorem getAllAvailableTimes_dedup_first (l : List Slot) (k : String × String × String) :
    (getAllAvailableTimesDedup l).filter (fun u => slotKey3 u == k) =
      (l.find? (fun u => slotKey3 u == k)).toList := by
  rw [getAllAvailableTimesDedup, dedupSlots_filter, if_neg (List.not_mem_nil k)]

/-- C6: the corrected local wait deadline equals the nominal target instant minus the
estimated clock offset `serverTime - localTime`; with the server clock ahead
(`localKst < serverKst`) the corrected deadline moves earlier than the nominal
instant by exactly the offset. -/
theorem targetLocalTime_eq_nominal_sub_offset (runDt sKst lKst : ℚ)
    (p2 p3 p4 p5 : Probe) (h : lKst < sKst) :
    targetLocalTime runDt (getServerTimeOffset (.ok sKst lKst) p2 p3 p4 p5) =
        runDt - (sKst - lKst) ∧
    targetLocalTime runDt (getServerTimeOffset (.ok sKst lKst) p2 p3 p4 p5) < runDt ∧
    runDt - targetLocalTime runDt (getServerTimeOffset (.ok sKst lKst) p2 p3 p4 p5) =
        sKst - lKst := by
  have hoff : getServerTimeOffset (.ok sKst lKst) p2 p3 p4 p5 = sKst - lKst := rfl
  refine ⟨rfl, ?_, ?_⟩
  · simp only [targetLocalTime, hoff]
    linarith
  · simp only [targetLocalTime, hoff]
    ring

/-- C6 witness: the theorem applied at nominal instant 100 with server time 5 and
local time 3. -/
theorem targetLocalTime_eq_nominal_sub_offset_witness :
    targetLocalTime 100 (getServerTimeOffset (.ok 5 3) .reqErr .reqErr .reqErr .reqErr) =
      100 - (5 - 3) :=
  (targetLocalTime_eq_nominal_sub_offset 100 5 3 .reqErr .reqErr .reqErr .reqErr
    (by norm_num)).1

/-- C7: `_fetch_tee_list` returns the empty sequence immediately on a well-formed
body with a protocol-level `resultCode` other than "0000" — whatever a second
attempt would have produced — while a transient first failure (network error or
malformed JSON, timeouts included in the former) is retried within the 2-attempt
budget, and two transient failures exhaust it. -/
theorem fetchTeeList_retry_policy (coDiv rc : String) (rs : List TeeRow) (d : TeeResp)
    (o2 : FetchOutcome) (hrc : rc ≠ "0000") :
    fetchTeeListRun coDiv [.parsed ⟨some rc, rs⟩, o2] = [] ∧
    fetchTeeListRun coDiv [.reqErr, .parsed d] = teeRespResult coDiv d ∧
    fetchTeeListRun coDiv [.badJson, .parsed d] = teeRespResult coDiv d ∧
    fetchTeeListRun coDiv [.reqErr, .reqErr] = [] ∧
    fetchTeeListRun coDiv [.badJson, .badJson] = [] := by
  refine ⟨?_, rfl, rfl, rfl, rfl⟩
  simp [fetchTeeListRun, fetchTeeList, teeRespResult, hrc]

/-- C7 witness: the theorem applied at result code "9999" with a successful parse
available on the (never reached) second attempt. -/
theorem fetchTeeList_retry_policy_witness :
    fetchTeeListRun "204" [.parsed ⟨some "9999", []⟩, .parsed ⟨some "0000", []⟩] = [] :=
  (fetchTeeList_retry_policy "204" "9999" [] ⟨some "0000", []⟩
    (.parsed ⟨some "0000", []⟩) (by decide)).1

/-- C8: when every one of the 5 probes of `get_server_time_offset` fails (request
error or missing `Date` header), the function returns the zero offset; it cannot
raise, being a total function by construction. -/
theorem getServerTimeOffset_allFail_zero (p1 p2 p3 p4 p5 : Probe)
    (h1 : p1 = .reqErr ∨ p1 = .noDate) (h2 : p2 = .reqErr ∨ p2 = .noDate)
    (h3 : p3 = .reqErr ∨ p3 = .noDate) (h4 : p4 = .reqErr ∨ p4 = .noDate)
    (h5 : p5 = .reqErr ∨ p5 = .noDate) :
    getServerTimeOffset p1 p2 p3 p4 p5 = 0 := by
  have step : ∀ (p : Probe) (k : ℚ), p = .reqErr ∨ p = .noDate → probeStep p k = k := by
    rintro p k (rfl | rfl) <;> rfl
  rw [getServerTimeOffset, step p1 _ h1, step p2 _ h2, step p3 _ h3, step p4 _ h4,
    step p5 _ h5]

/-- C8 witness: the theorem applied to five concrete failed probes. -/
theorem getServerTimeOffset_allFail_zero_witness :
    getServerTimeOffset .reqErr .noDate .reqErr .noDate .reqErr = 0 :=
  getServerTimeOffset_allFail_zero _ _ _ _ _ (Or.inl rfl) (Or.inr rfl) (Or.inl rfl)
    (Or.inr rfl) (Or.inl rfl)

theorem keyLeB_fst_le {p q : String × String} (h : keyLeB p q = true) :
    pyLe p.1 q.1 = true := by
  simp only [keyLeB, Bool.or_eq_true, Bool.and_eq_true, beq_iff_eq] at h
  rcases h with h | ⟨e, _⟩
  · exact pyLt_le h
  · exact e ▸ pyLe_refl _

/-- C1 counterexample: two surviving slots share the time "0700" with course codes
"A" and "B"; with `direction = descending` the output lists "B" before "A", so
equal-time slots appear in course-code-descending order — `sort(reverse=True)`
reverses the tie-break too, refuting "course-code-ascending regardless of
direction". -/
theorem filterAndSort_desc_tiebreak_cex :
    filterAndSortTimes
        [⟨"0700", "A", "1", "예술OUT", "204", "OK"⟩, ⟨"0700", "B", "2", "예술IN", "204", "OK"⟩]
        "07:00" "08:00" (.many ["All"]) true =
      [⟨"0700", "B", "2", "예술IN", "204", "OK"⟩, ⟨"0700", "A", "1", "예술OUT", "204", "OK"⟩] ∧
    pyLt "A" "B" = true := by
  constructor <;> decide

/-- C1 (amended): for every slot sequence and fixed window, course filter and
direction, the output of `filter_and_sort_times` is sorted by the key `(time, course
code)` — lexicographically non-decreasing when ascending and non-increasing when
descending — so the time column is monotone in the claimed direction, but the
equal-time tie-break follows the direction as well: course code ascending when
ascending and descending when descending. -/
theorem filterAndSort_sorted_by_direction (allTimes : List Slot) (s e : String)
    (arg : CourseArg) :
    List.Sorted slotLeAsc (filterAndSortTimes allTimes s e arg false) ∧
    List.Sorted slotLeDesc (filterAndSortTimes allTimes s e arg true) ∧
    List.Pairwise (fun a b => pyLe a.bkTime b.bkTime = true)
      (filterAndSortTimes allTimes s e arg false) ∧
    List.Pairwise (fun a b => pyLe b.bkTime a.bkTime = true)
      (filterAndSortTimes allTimes s e arg true) := by
  have hasc : List.Sorted slotLeAsc (filterAndSortTimes allTimes s e arg false) :=
    List.sorted_insertionSort slotLeAsc _
  have hdesc : List.Sorted slotLeDesc (filterAndSortTimes allTimes s e arg true) :=
    List.sorted_insertionSort slotLeDesc _
  exact ⟨hasc, hdesc, hasc.imp keyLeB_fst_le, hdesc.imp keyLeB_fst_le⟩

/-- C4 counterexample: with the course filter ["All"], the selected course-code set
is {A, B, C, D}, yet a slot whose course code "E" is outside that set is still kept
(time in window, status "OK") because `"All" in target_course_names` bypasses the
membership test (src line 491). -/
theorem filterAndSort_allBypass_cex :
    filterAndSortTimes [⟨"0730", "E", "1", "Unknown", "204", "OK"⟩] "07:00" "08:00"
        (.many ["All"]) false = [⟨"0730", "E", "1", "Unknown", "204", "OK"⟩] ∧
    targetCourseCodes (.many ["All"]) = ["A", "B", "C", "D"] ∧
    ("E" ∈ targetCourseCodes (.many ["All"])) = False := by
  refine ⟨by decide, by decide, ?_⟩
  simp only [eq_iff_iff, iff_false]
  decide

/-- C4 (amended): `filter_and_sort_times` keeps a slot iff its time lies within the
normalized `[start, end]` window inclusive (string comparison on the 4-digit forms),
its course code is in the selected course set — or the literal name "All" occurs
among the selected names, in which case every course code passes — and its status
field equals the bookable sentinel "OK" exactly: any other status excludes the slot
even when its time and course match. -/
theorem filterAndSort_mem_iff (allTimes : List Slot) (s e : String) (arg : CourseArg)
    (rev : Bool) (t : Slot) :
    t ∈ filterAndSortTimes allTimes s e arg rev ↔
      t ∈ allTimes ∧
        (pyLe (formatTimeForApi s) t.bkTime = true ∧
          pyLe t.bkTime (formatTimeForApi e) = true) ∧
        (allInNames arg = true ∨ t.bkCos ∈ targetCourseCodes arg) ∧
        t.statusR = "OK" := by
  rw [mem_filterAndSortTimes]
  simp [keepSlot, and_assoc, List.contains_iff_exists_mem_beq]

/-- C10 counterexample: the bare-string course-filter name "AllX" is outside the
recognized categories, yet a slot with course code "A" ≠ "AllX" passes the course
filter, because `"All" in target_course_names` is a substring test when the argument
is a string (src line 491). -/
theorem courseFilter_literal_name_cex :
    filterAndSortTimes [⟨"0730", "A", "1", "예술OUT", "204", "OK"⟩] "07:00" "08:00"
        (.one "AllX") false = [⟨"0730", "A", "1", "예술OUT", "204", "OK"⟩] ∧
    ("AllX" : String) ≠ "All" ∧ ("AllX" : String) ≠ "예술" ∧
    ("AllX" : String) ≠ "문화" ∧ ("A" : String) ≠ "AllX" := by
  refine ⟨by decide, by decide, by decide, by decide, by decide⟩

theorem courseMap_find_unrecognized (name : String) (h1 : name ≠ "All")
    (h2 : name ≠ "예술") (h3 : name ≠ "문화") :
    courseMap.find? (fun p => p.1 == name) = none := by
  have e1 : (("All" : String) == name) = false := beq_eq_false_iff_ne.mpr (Ne.symm h1)
  have e2 : (("예술" : String) == name) = false := beq_eq_false_iff_ne.mpr (Ne.symm h2)
  have e3 : (("문화" : String) == name) = false := beq_eq_false_iff_ne.mpr (Ne.symm h3)
  simp [courseMap, List.find?, e1, e2, e3]

/-- C10 (amended): a course-filter name outside the recognized categories is treated
as a literal course code — the selected course set is the name itself — and, when
the filter is a singleton list, or a bare string not containing "All" as a
substring, only slots whose course code equals that name survive the filter; a bare
string containing "All" as a substring instead disables the course filter entirely
(Python substring semantics of `in`). -/
theorem courseFilter_literal_name (name : String) (allTimes : List Slot) (s e : String)
    (rev : Bool) (h1 : name ≠ "All") (h2 : name ≠ "예술") (h3 : name ≠ "문화") :
    targetCourseCodes (.many [name]) = [name] ∧
    targetCourseCodes (.one name) = [name] ∧
    (∀ t ∈ filterAndSortTimes allTimes s e (.many [name]) rev, t.bkCos = name) ∧
    (containsSub "All" name = false →
      ∀ t ∈ filterAndSortTimes allTimes s e (.one name) rev, t.bkCos = name) := by
  have hfind := courseMap_find_unrecognized name h1 h2 h3
  have hmany : targetCourseCodes (.many [name]) = [name] := by
    simp [targetCourseCodes, courseNameList, hfind]
  have hone : targetCourseCodes (.one name) = [name] := by
    simp [targetCourseCodes, courseNameList, hfind]
  have hallm : allInNames (.many [name]) = false := by
    have : (("All" : String) == name) = false := beq_eq_false_iff_ne.mpr (Ne.symm h1)
    simp [allInNames, List.contains, List.elem, this]
  refine ⟨hmany, hone, ?_, ?_⟩
  · intro t ht
    have h := (mem_filterAndSortTimes.mp ht).2
    simp only [keepSlot, Bool.and_eq_true, Bool.or_eq_true, hallm, Bool.false_eq_true,
      false_or, hmany, List.contains_iff_exists_mem_beq, List.mem_singleton] at h
    obtain ⟨⟨_, a, rfl, hbeq⟩, _⟩ := h
    exact beq_iff_eq.mp hbeq
  · intro hsub t ht
    have h := (mem_filterAndSortTimes.mp ht).2
    have hallo : allInNames (.one name) = false := by simp [allInNames, hsub]
    simp only [keepSlot, Bool.and_eq_true, Bool.or_eq_true, hallo, Bool.false_eq_true,
      false_or, hone, List.contains_iff_exists_mem_beq, List.mem_singleton] at h
    obtain ⟨⟨_, a, rfl, hbeq⟩, _⟩ := h
    exact beq_iff_eq.mp hbeq

/-- C10 witness: the theorem applied at the unrecognized name "Z" with a slot whose
course code is "Z". -/
theorem courseFilter_literal_name_witness :
    targetCourseCodes (.many ["Z"]) = ["Z"] ∧
    (⟨"0730", "Z", "1", "Unknown", "204", "OK"⟩ : Slot).bkCos = "Z" := by
  have h := courseFilter_literal_name "Z" [⟨"0730", "Z", "1", "Unknown", "204", "OK"⟩]
    "07:00" "08:00" false (by decide) (by decide) (by decide)
  exact ⟨h.1, h.2.2.2 (by decide) ⟨"0730", "Z", "1", "Unknown", "204", "OK"⟩ (by decide)⟩

/-- C9 counterexample: the input "07:30" is not a 3- or 4-digit numeric string, yet
`format_time_for_api` returns "0730" (the colon is stripped first), not the "0000"
sentinel the claim predicts. -/
theorem formatTimeForApi_colon_cex :
    formatTimeForApi "07:30" = "0730" ∧ "07:30".toList.all Char.isDigit = false ∧
    "07:30".length = 5 := by
  refine ⟨by decide, by decide, by decide⟩

/-- C9 (amended): both formatters are total functions (they cannot raise);
`format_time_for_api` returns the "0000" sentinel exactly when the
whitespace-trimmed, colon-stripped input is not a 3- or 4-digit numeric string, and
`format_time_for_display` always returns either the "HH:MM" reformatting or the
trimmed colon-stripped input unchanged (a best-effort value). -/
theorem formatTime_total_behavior (s : String) :
    (¬((normTimeChars s).all Char.isDigit = true ∧
        ((normTimeChars s).length = 3 ∨ (normTimeChars s).length = 4)) →
      formatTimeForApi s = "0000") ∧
    (formatTimeForDisplay s =
        String.mk ((normTimeChars s).take 2) ++ ":" ++ String.mk ((normTimeChars s).drop 2) ∨
      formatTimeForDisplay s = String.mk (normTimeChars s)) := by
  constructor
  · intro h
    rw [formatTimeForApi, if_neg h]
  · by_cases h : (normTimeChars s).all Char.isDigit = true ∧ (normTimeChars s).length = 4
    · left
      rw [formatTimeForDisplay, if_pos h]
    · right
      rw [formatTimeForDisplay, if_neg h, ite_self]

/-- C9 witness: the theorem applied at the malformed input "abc". -/
theorem formatTime_total_behavior_witness : formatTimeForApi "abc" = "0000" :=
  (formatTime_total_behavior "abc").1 (by decide)
